import Mathlib

/-!
Verification of the ai-ebash turn engine, streaming client and code-block
executor against their natural-language specification.

The Python sources (`src/aiebash/llm_client.py`, `src/aiebash/script_executor.py`,
`src/aiebash/error_messages.py`, `src/aiebash/__main__.py`) are shallowly
embedded: pure computations become Lean functions, side-effecting control flow
becomes an explicit event trace, byte strings become `List Nat` (one entry per
byte), and fallible operations return `Except`/`Option`.
-/

namespace AiEbash

/-- A chat message, embedding the Python dicts `{"role": r, "content": c\x7d`
kept in `OpenRouterClient.messages` (llm_client.py). -/
structure Message where
  role : String
  content : String
  deriving DecidableEq, Repr

/-- A streamed chunk's `chunk.choices[0].delta.content`: `none` embeds Python
`None`, `some s` a string (possibly empty). -/
abbrev Chunk := Option String

/-- Python truthiness of a chunk content (`if chunk.choices[0].delta.content:`,
llm_client.py lines 225 and 250): `none` and the empty string are falsy. -/
def truthyContent : Chunk → Option String
  | none => none
  | some s => if s = "" then none else some s

/-- Embeds `OpenRouterClient._get_first_content_chunk` (llm_client.py 222-229):
scans the stream for the first truthy chunk content; returns it together with
the not-yet-consumed remainder of the stream, or `none` if the stream ends. -/
def getFirstContentChunk : List Chunk → Option (String × List Chunk)
  | [] => none
  | c :: rest =>
    match truthyContent c with
    | some s => some (s, rest)
    | none => getFirstContentChunk rest

/-- Observable events of one `ask` / `ask_stream` call: spinner control,
transcript appends, live renders, and the call's outcome. -/
inductive Ev where
  | startSpinner : Ev
  | stopSpinner : Ev
  | joinSpinner : Ev
  | appendMsg : Message → Ev
  | render : String → Ev
  | raised : Ev
  | returned : String → Ev
  deriving DecidableEq, Repr

/-- Embeds `OpenRouterClient._add_messages_to_context` (llm_client.py 154-157):
extends the transcript with the educational messages, then the user message. -/
def addMessagesEvents (educational : List Message) (user_input : String) : List Ev :=
  educational.map Ev.appendMsg ++ [Ev.appendMsg ⟨"user", user_input⟩]

/-- Embeds `OpenRouterClient.ask` (llm_client.py 117-152) as an event trace.
`apiResult` is the outcome of `self._make_api_request()` followed by reading
`response.choices[0].message.content`: `Except.ok reply` on success,
`Except.error e` when the call raises.  On success the spinner is stopped and
joined, the assistant message appended and the reply returned; on failure the
`except` block stops and joins the spinner and re-raises. -/
def askEvents {ε : Type} (educational : List Message) (user_input : String)
    (apiResult : Except ε String) : List Ev :=
  addMessagesEvents educational user_input ++ [Ev.startSpinner] ++
    match apiResult with
    | .ok reply =>
        [Ev.stopSpinner, Ev.joinSpinner, Ev.appendMsg ⟨"assistant", reply⟩,
         Ev.returned reply]
    | .error _ => [Ev.stopSpinner, Ev.joinSpinner, Ev.raised]

/-- Outcome of the streaming request plus stream iteration in `ask_stream`:
`requestError` embeds `self._make_streaming_api_request()` raising,
`iterError consumed` embeds the stream iteration raising after having yielded
the chunks `consumed`, and `done chunks` a stream that ends normally after
yielding `chunks`. -/
inductive StreamRun where
  | requestError : StreamRun
  | iterError : List Chunk → StreamRun
  | done : List Chunk → StreamRun
  deriving DecidableEq, Repr

/-- Whether the run embeds a raising model call. -/
def StreamRun.isErrorRun : StreamRun → Bool
  | .done _ => false
  | _ => true

/-- Embeds the chunk loop of `OpenRouterClient._process_streaming_response`
(llm_client.py 248-258): each truthy chunk is appended to `reply_parts` and the
full accumulated text re-rendered through Rich Live. -/
def renderEvents (reply_parts : List String) : List Chunk → List Ev
  | [] => []
  | c :: rest =>
    match truthyContent c with
    | none => renderEvents reply_parts rest
    | some text =>
        Ev.render (String.join (reply_parts ++ [text])) ::
          renderEvents (reply_parts ++ [text]) rest

/-- Embeds `OpenRouterClient.ask_stream` (llm_client.py 169-211) as an event
trace.  Faithful points: the spinner is stopped and joined as soon as
`_get_first_content_chunk` returns (lines 194-197), whether or not a chunk was
found; `_process_streaming_response` first renders the first chunk (243-246)
then the accumulated text per truthy chunk; on success the joined reply is
appended (202-203); the `except` block (206-211) sets the stop event again and
joins only if the spinner thread is still alive, then re-raises. -/
def askStreamEvents (educational : List Message) (user_input : String)
    (run : StreamRun) : List Ev :=
  addMessagesEvents educational user_input ++ [Ev.startSpinner] ++
    match run with
    | .requestError => [Ev.stopSpinner, Ev.joinSpinner, Ev.raised]
    | .iterError consumed =>
        match getFirstContentChunk consumed with
        | none => [Ev.stopSpinner, Ev.joinSpinner, Ev.raised]
        | some (first, rest) =>
            [Ev.stopSpinner, Ev.joinSpinner, Ev.render first] ++
              renderEvents [first] rest ++ [Ev.stopSpinner, Ev.raised]
    | .done chunks =>
        match getFirstContentChunk chunks with
        | none =>
            [Ev.stopSpinner, Ev.joinSpinner, Ev.appendMsg ⟨"assistant", ""⟩,
             Ev.returned ""]
        | some (first, rest) =>
            [Ev.stopSpinner, Ev.joinSpinner, Ev.render first] ++
              renderEvents [first] rest ++
              [Ev.appendMsg ⟨"assistant",
                 String.join (first :: rest.filterMap truthyContent)⟩,
               Ev.returned (String.join (first :: rest.filterMap truthyContent))]

/-- The message appended by an event, if any. -/
def Ev.msgOf : Ev → Option Message
  | .appendMsg m => some m
  | _ => none

/-- The value returned by an event, if any. -/
def Ev.retOf : Ev → Option String
  | .returned s => some s
  | _ => none

/-- The transcript after replaying a trace on top of `init`. -/
def transcriptAfter (init : List Message) (evs : List Ev) : List Message :=
  init ++ evs.filterMap Ev.msgOf

/-- The value returned by the traced call, if it returned. -/
def returnedOf (evs : List Ev) : Option String :=
  (evs.filterMap Ev.retOf).getLast?

/-- Scans a trace and checks that whenever `raised` occurs, both a
`stopSpinner` and a `joinSpinner` occurred earlier in the trace. -/
def goStopJoin : Bool → Bool → List Ev → Bool
  | _, _, [] => true
  | stopped, joined, Ev.raised :: rest =>
      stopped && joined && goStopJoin stopped joined rest
  | _, joined, Ev.stopSpinner :: rest => goStopJoin true joined rest
  | stopped, _, Ev.joinSpinner :: rest => goStopJoin stopped true rest
  | stopped, joined, _ :: rest => goStopJoin stopped joined rest

/-- Every raise in the trace is preceded by a spinner stop and a join. -/
def stopJoinBeforeRaise (evs : List Ev) : Bool :=
  goStopJoin false false evs

lemma getFirstContentChunk_eq_none_iff (chunks : List Chunk) :
    getFirstContentChunk chunks = none ↔ chunks.filterMap truthyContent = [] := by
  induction chunks with
  | nil => simp [getFirstContentChunk]
  | cons c rest ih =>
    cases h : truthyContent c with
    | none => simp [getFirstContentChunk, h, ih]
    | some s => simp [getFirstContentChunk, h]

lemma getFirstContentChunk_eq_some (chunks : List Chunk) (f : String)
    (rest : List Chunk) (h : getFirstContentChunk chunks = some (f, rest)) :
    chunks.filterMap truthyContent = f :: rest.filterMap truthyContent := by
  induction chunks with
  | nil => simp [getFirstContentChunk] at h
  | cons c cs ih =>
    simp only [getFirstContentChunk] at h
    cases hc : truthyContent c with
    | none =>
      rw [hc] at h
      simp only [List.filterMap_cons, hc]
      exact ih h
    | some s =>
      rw [hc] at h
      simp only [Option.some.injEq, Prod.mk.injEq] at h
      simp [List.filterMap_cons, hc, h.1, h.2]

lemma renderEvents_filterMap_msgOf (acc : List String) (rest : List Chunk) :
    (renderEvents acc rest).filterMap Ev.msgOf = [] := by
  induction rest generalizing acc with
  | nil => simp [renderEvents]
  | cons c cs ih =>
    cases hc : truthyContent c with
    | none => simp [renderEvents, hc, ih]
    | some s => simp [renderEvents, hc, ih, Ev.msgOf]

lemma renderEvents_filterMap_retOf (acc : List String) (rest : List Chunk) :
    (renderEvents acc rest).filterMap Ev.retOf = [] := by
  induction rest generalizing acc with
  | nil => simp [renderEvents]
  | cons c cs ih =>
    cases hc : truthyContent c with
    | none => simp [renderEvents, hc, ih]
    | some s => simp [renderEvents, hc, ih, Ev.retOf]

lemma filterMap_msgOf_map_appendMsg (ms : List Message) :
    (ms.map Ev.appendMsg).filterMap Ev.msgOf = ms := by
  induction ms with
  | nil => rfl
  | cons m ms ih => simp [Ev.msgOf, ih]

lemma filterMap_retOf_map_appendMsg (ms : List Message) :
    (ms.map Ev.appendMsg).filterMap Ev.retOf = [] := by
  induction ms with
  | nil => rfl
  | cons m ms ih => simp [Ev.retOf, ih]

lemma filterMap_msgOf_comp_appendMsg (ms : List Message) :
    List.filterMap (Ev.msgOf ∘ Ev.appendMsg) ms = ms := by
  induction ms with
  | nil => rfl
  | cons m ms ih => simp [Ev.msgOf, Function.comp, ih]

lemma filterMap_retOf_comp_appendMsg (ms : List Message) :
    List.filterMap (Ev.retOf ∘ Ev.appendMsg) ms = [] := by
  induction ms with
  | nil => rfl
  | cons m ms ih => simp [Ev.retOf, Function.comp, ih]

lemma goStopJoin_true_true (evs : List Ev) : goStopJoin true true evs = true := by
  induction evs with
  | nil => rfl
  | cons e rest ih => cases e <;> simp [goStopJoin, ih]

lemma goStopJoin_append_msgs (ms : List Message) (s j : Bool) (rest : List Ev) :
    goStopJoin s j (ms.map Ev.appendMsg ++ rest) = goStopJoin s j rest := by
  induction ms generalizing s j with
  | nil => simp
  | cons m ms ih => simp [goStopJoin, ih]

/-- C1: for a streamed call whose chunk sequence contains at least one truthy
(non-`None`, non-empty) fragment, `ask_stream` returns exactly the in-order
concatenation of the truthy fragment contents, and the last message of the
transcript afterwards is an assistant message holding that concatenation. -/
theorem c1_ask_stream_concat (init educational : List Message) (user_input : String)
    (chunks : List Chunk) (hne : chunks.filterMap truthyContent ≠ []) :
    returnedOf (askStreamEvents educational user_input (.done chunks))
        = some (String.join (chunks.filterMap truthyContent))
      ∧ (transcriptAfter init (askStreamEvents educational user_input (.done chunks))).getLast?
        = some ⟨"assistant", String.join (chunks.filterMap truthyContent)⟩ := by
  cases h : getFirstContentChunk chunks with
  | none => exact absurd ((getFirstContentChunk_eq_none_iff chunks).mp h) hne
  | some fr =>
    obtain ⟨f, rest⟩ := fr
    have hfm := getFirstContentChunk_eq_some chunks f rest h
    refine ⟨?_, ?_⟩
    · simp [returnedOf, askStreamEvents, h, addMessagesEvents, List.filterMap_append,
        renderEvents_filterMap_retOf, filterMap_retOf_map_appendMsg, filterMap_retOf_comp_appendMsg, Ev.retOf, hfm]
    · have ht : transcriptAfter init (askStreamEvents educational user_input (.done chunks))
          = (init ++ educational ++ [⟨"user", user_input⟩]) ++
              [⟨"assistant", String.join (chunks.filterMap truthyContent)⟩] := by
        simp [transcriptAfter, askStreamEvents, h, addMessagesEvents, List.filterMap_append,
          renderEvents_filterMap_msgOf, filterMap_msgOf_map_appendMsg, filterMap_msgOf_comp_appendMsg, Ev.msgOf, hfm]
      rw [ht, List.getLast?_concat]

/-- C1 witness: a concrete four-chunk stream whose truthy contents are
`"a"` and `"b"`. -/
theorem c1_witness :
    (([some "a", none, some "", some "b"] : List Chunk).filterMap truthyContent ≠ [])
      ∧ (returnedOf (askStreamEvents [] "q" (.done [some "a", none, some "", some "b"]))
          = some (String.join (([some "a", none, some "", some "b"] : List Chunk).filterMap truthyContent))
        ∧ (transcriptAfter [] (askStreamEvents [] "q" (.done [some "a", none, some "", some "b"]))).getLast?
          = some ⟨"assistant", String.join (([some "a", none, some "", some "b"] : List Chunk).filterMap truthyContent)⟩) :=
  ⟨by decide, c1_ask_stream_concat [] [] "q" [some "a", none, some "", some "b"] (by decide)⟩

/-- C2: whenever the model call raises — in batched `ask` or in streamed
`ask_stream`, at the request or mid-iteration — the spinner stop event is set
and the spinner thread joined before the exception propagates, and the
transcript equals the pre-call transcript: the educational (hint) messages and
the user message are present, and no assistant message was appended. -/
theorem c2_failure_cleanup {ε : Type} (init educational : List Message)
    (user_input : String) (e : ε) (run : StreamRun) (hrun : run.isErrorRun = true) :
    (stopJoinBeforeRaise (askEvents educational user_input (Except.error e)) = true
      ∧ transcriptAfter init (askEvents educational user_input (Except.error e))
          = init ++ educational ++ [⟨"user", user_input⟩])
    ∧ (stopJoinBeforeRaise (askStreamEvents educational user_input run) = true
      ∧ transcriptAfter init (askStreamEvents educational user_input run)
          = init ++ educational ++ [⟨"user", user_input⟩]) := by
  refine ⟨⟨?_, ?_⟩, ?_, ?_⟩
  · simp [stopJoinBeforeRaise, askEvents, addMessagesEvents, goStopJoin_append_msgs, goStopJoin]
  · simp [transcriptAfter, askEvents, addMessagesEvents, List.filterMap_append,
      filterMap_msgOf_map_appendMsg, filterMap_msgOf_comp_appendMsg, Ev.msgOf]
  · cases run with
    | done chunks => simp [StreamRun.isErrorRun] at hrun
    | requestError =>
      simp [stopJoinBeforeRaise, askStreamEvents, addMessagesEvents,
        goStopJoin_append_msgs, goStopJoin]
    | iterError consumed =>
      cases h : getFirstContentChunk consumed with
      | none =>
        simp [stopJoinBeforeRaise, askStreamEvents, h, addMessagesEvents,
          goStopJoin_append_msgs, goStopJoin]
      | some fr =>
        obtain ⟨f, rest⟩ := fr
        simp [stopJoinBeforeRaise, askStreamEvents, h, addMessagesEvents,
          goStopJoin_append_msgs, goStopJoin, goStopJoin_true_true]
  · cases run with
    | done chunks => simp [StreamRun.isErrorRun] at hrun
    | requestError =>
      simp [transcriptAfter, askStreamEvents, addMessagesEvents, List.filterMap_append,
        filterMap_msgOf_map_appendMsg, filterMap_msgOf_comp_appendMsg, Ev.msgOf]
    | iterError consumed =>
      cases h : getFirstContentChunk consumed with
      | none =>
        simp [transcriptAfter, askStreamEvents, h, addMessagesEvents, List.filterMap_append,
          filterMap_msgOf_map_appendMsg, filterMap_msgOf_comp_appendMsg, Ev.msgOf]
      | some fr =>
        obtain ⟨f, rest⟩ := fr
        simp [transcriptAfter, askStreamEvents, h, addMessagesEvents, List.filterMap_append,
          filterMap_msgOf_map_appendMsg, filterMap_msgOf_comp_appendMsg,
          renderEvents_filterMap_msgOf, Ev.msgOf]

/-- C2 witness: a concrete failing streamed run (iteration raises after one
truthy chunk) on a one-hint transcript. -/
theorem c2_witness :
    (StreamRun.iterError [some "x"]).isErrorRun = true
      ∧ ((stopJoinBeforeRaise (askEvents [⟨"system", "hint"⟩] "q" (Except.error ())) = true
        ∧ transcriptAfter [⟨"system", "sys"⟩] (askEvents [⟨"system", "hint"⟩] "q" (Except.error ()))
            = [⟨"system", "sys"⟩] ++ [⟨"system", "hint"⟩] ++ [⟨"user", "q"⟩])
      ∧ (stopJoinBeforeRaise (askStreamEvents [⟨"system", "hint"⟩] "q" (.iterError [some "x"])) = true
        ∧ transcriptAfter [⟨"system", "sys"⟩] (askStreamEvents [⟨"system", "hint"⟩] "q" (.iterError [some "x"]))
            = [⟨"system", "sys"⟩] ++ [⟨"system", "hint"⟩] ++ [⟨"user", "q"⟩])) :=
  ⟨by decide, c2_failure_cleanup [⟨"system", "sys"⟩] [⟨"system", "hint"⟩] "q" ()
    (.iterError [some "x"]) (by decide)⟩

/-- C6: a streamed call whose chunk sequence contains no truthy fragment
performs no render, still appends exactly one assistant message with empty
content, and returns the empty string. -/
theorem c6_empty_stream (init educational : List Message) (user_input : String)
    (chunks : List Chunk) (h : chunks.filterMap truthyContent = []) :
    (∀ s, Ev.render s ∉ askStreamEvents educational user_input (.done chunks))
      ∧ transcriptAfter init (askStreamEvents educational user_input (.done chunks))
          = init ++ educational ++ [⟨"user", user_input⟩, ⟨"assistant", ""⟩]
      ∧ returnedOf (askStreamEvents educational user_input (.done chunks)) = some "" := by
  have hg : getFirstContentChunk chunks = none :=
    (getFirstContentChunk_eq_none_iff chunks).mpr h
  refine ⟨?_, ?_, ?_⟩
  · intro s
    simp [askStreamEvents, hg, addMessagesEvents, List.mem_append, List.mem_map]
  · simp [transcriptAfter, askStreamEvents, hg, addMessagesEvents, List.filterMap_append,
      filterMap_msgOf_map_appendMsg, filterMap_msgOf_comp_appendMsg, Ev.msgOf]
  · simp [returnedOf, askStreamEvents, hg, addMessagesEvents, List.filterMap_append,
      filterMap_retOf_map_appendMsg, filterMap_retOf_comp_appendMsg, Ev.retOf]

/-- State of the dialog loop in `QueryExecutor.run_dialog_mode` /
`QueryExecutor._dialog_loop` (__main__.py): the client's transcript
(`OpenRouterClient.messages`) and the mutable `educational_content` list. -/
structure DialogState where
  messages : List Message
  educational : List Message
  deriving DecidableEq, Repr

/-- Embeds `QueryExecutor._process_user_input` (__main__.py 373-394), batched
path: it calls `ask`, which first extends the transcript via
`_add_messages_to_context`; on success the reply is returned, on a raised
error the handler prints a message and returns `none` (Python `None`). -/
def processUserInput (st : DialogState) (user_input : String)
    (apiResult : Except Unit String) : DialogState × Option String :=
  match apiResult with
  | .ok reply =>
      ({ st with messages :=
          transcriptAfter st.messages (askEvents st.educational user_input
            (Except.ok (ε := Unit) reply)) },
       some reply)
  | .error e =>
      ({ st with messages :=
          transcriptAfter st.messages (askEvents st.educational user_input
            (Except.error (α := String) e)) },
       none)

/-- Embeds one LLM-query iteration of `QueryExecutor._dialog_loop`
(__main__.py 468-473): after `_process_user_input`, the educational content is
cleared only when the reply is truthy (`if reply:` — neither `None` nor the
empty string).  The non-LLM branches of the loop (empty input, exit commands,
digit input running a code block) touch neither the transcript nor the
educational content and are not modelled. -/
def dialogTurn (st : DialogState) (user_input : String)
    (apiResult : Except Unit String) : DialogState :=
  let res := processUserInput st user_input apiResult
  match res.2 with
  | some reply => if reply ≠ "" then { res.1 with educational := [] } else res.1
  | none => res.1

/-- A sequence of LLM-query turns of the dialog loop. -/
def dialogRun (st : DialogState) : List (String × Except Unit String) → DialogState
  | [] => st
  | (input, apiResult) :: rest => dialogRun (dialogTurn st input apiResult) rest

/-- Whether a turn's model call returned a truthy (non-empty) reply. -/
def turnOk : String × Except Unit String → Bool
  | (_, .ok r) => r ≠ ""
  | (_, .error _) => false

/-- C4 counterexample: starting from a system message and one queued hint, a
turn whose model call raises leaves the hint both in the transcript (appended
by `_add_messages_to_context`) and in the still-uncleared
`educational_content`; the next, successful turn appends it again, so the
transcript holds two copies of the hint block — refuting the claim that no
transcript ever contains two copies. -/
theorem c4_counterexample :
    ((dialogRun ⟨[⟨"system", "sys"⟩], [⟨"system", "hint"⟩]⟩
        [("q1", Except.error ()), ("q2", Except.ok "reply")]).messages.count
      ⟨"system", "hint"⟩) = 2 := by decide

lemma count_user_assistant_nil (h : Message) (hu : h.role ≠ "user")
    (ha : h.role ≠ "assistant") (u r : String) :
    ([(⟨"user", u⟩ : Message), ⟨"assistant", r⟩].count h) = 0 := by
  have h1 : (⟨"user", u⟩ : Message) ≠ h := fun heq => hu (by rw [← heq])
  have h2 : (⟨"assistant", r⟩ : Message) ≠ h := fun heq => ha (by rw [← heq])
  simp [List.count_cons, h1, h2]

lemma dialogTurn_ok (st : DialogState) (input reply : String) (hr : reply ≠ "") :
    dialogTurn st input (Except.ok reply)
      = ⟨st.messages ++ st.educational ++ [⟨"user", input⟩, ⟨"assistant", reply⟩],
         []⟩ := by
  simp [dialogTurn, processUserInput, transcriptAfter, askEvents, addMessagesEvents,
    List.filterMap_append, filterMap_msgOf_map_appendMsg, filterMap_msgOf_comp_appendMsg,
    Ev.msgOf, hr]

lemma dialogRun_count_le (h : Message) (hu : h.role ≠ "user")
    (ha : h.role ≠ "assistant") (turns : List (String × Except Unit String))
    (st : DialogState) (hok : turns.all turnOk = true) :
    (dialogRun st turns).messages.count h
      ≤ st.messages.count h + st.educational.count h := by
  induction turns generalizing st with
  | nil => simp [dialogRun]
  | cons t rest ih =>
    obtain ⟨input, apiResult⟩ := t
    rw [List.all_cons, Bool.and_eq_true] at hok
    obtain ⟨hok1, hok2⟩ := hok
    cases apiResult with
    | error e => simp [turnOk] at hok1
    | ok reply =>
      have hr : reply ≠ "" := by simpa [turnOk] using hok1
      have hstep : dialogRun st ((input, Except.ok reply) :: rest)
          = dialogRun (DialogState.mk (st.messages ++ st.educational ++
              [⟨"user", input⟩, ⟨"assistant", reply⟩]) []) rest := by
        simp only [dialogRun]
        rw [dialogTurn_ok st input reply hr]
      rw [hstep]
      calc (dialogRun (DialogState.mk (st.messages ++ st.educational ++
              [⟨"user", input⟩, ⟨"assistant", reply⟩]) []) rest).messages.count h
          ≤ (st.messages ++ st.educational ++
              ([Message.mk "user" input, Message.mk "assistant" reply] : List Message)).count h
            + ([] : List Message).count h := ih _ hok2
        _ ≤ st.messages.count h + st.educational.count h := by
            simp [List.count_append, count_user_assistant_nil h hu ha]

/-- C4 amended: the at-most-one-copy invariant holds for dialogs in which
every model call succeeds with a truthy (non-empty) reply: if the hint message
occurs at most once in the initial educational block and not in the initial
transcript, then no transcript reached during such a dialog contains two
copies of it.  (As `c4_counterexample` shows, a failed — or empty-reply — turn
leaves the hint queued after it was already appended, so the unamended claim
is false.) -/
theorem c4_hint_block_amended (sysMsgs hints : List Message) (h : Message)
    (hm : sysMsgs.count h = 0) (hh : hints.count h ≤ 1)
    (hu : h.role ≠ "user") (ha : h.role ≠ "assistant")
    (turns : List (String × Except Unit String)) (hok : turns.all turnOk = true) :
    (dialogRun ⟨sysMsgs, hints⟩ turns).messages.count h ≤ 1 := by
  calc (dialogRun ⟨sysMsgs, hints⟩ turns).messages.count h
      ≤ sysMsgs.count h + hints.count h := dialogRun_count_le h hu ha turns _ hok
    _ ≤ 1 := by omega

/-- C4 witness: one successful turn on a one-hint dialog keeps a single copy. -/
theorem c4_witness :
    (([⟨"system", "sys"⟩] : List Message).count ⟨"system", "hint"⟩ = 0
      ∧ ([⟨"system", "hint"⟩] : List Message).count ⟨"system", "hint"⟩ ≤ 1
      ∧ (Message.mk "system" "hint").role ≠ "user"
      ∧ (Message.mk "system" "hint").role ≠ "assistant"
      ∧ ([("q", Except.ok "r")] : List (String × Except Unit String)).all turnOk = true)
    ∧ (dialogRun ⟨[⟨"system", "sys"⟩], [⟨"system", "hint"⟩]⟩
        [("q", Except.ok "r")]).messages.count ⟨"system", "hint"⟩ ≤ 1 :=
  ⟨⟨by decide, by decide, by decide, by decide, by decide⟩,
    c4_hint_block_amended [⟨"system", "sys"⟩] [⟨"system", "hint"⟩] ⟨"system", "hint"⟩
      (by decide) (by decide) (by decide) (by decide) [("q", Except.ok "r")] (by decide)⟩

/-- C6 witness: a concrete stream of a `None` delta and an empty-string delta. -/
theorem c6_witness :
    (([none, some ""] : List Chunk).filterMap truthyContent = [])
      ∧ ((∀ s, Ev.render s ∉ askStreamEvents [] "q" (.done [none, some ""]))
        ∧ transcriptAfter [] (askStreamEvents [] "q" (.done [none, some ""]))
            = [] ++ [] ++ [⟨"user", "q"⟩, ⟨"assistant", ""⟩]
        ∧ returnedOf (askStreamEvents [] "q" (.done [none, some ""])) = some "") :=
  ⟨by decide, c6_empty_stream [] [] "q" [none, some ""] (by decide)⟩

/-! ## Encoding decoder and process runner (script_executor.py) -/

/-- The byte encodings named in `script_executor.py`; `iso8859_1` also stands
for Python's `'latin1'` alias used by the final fallback (line 58). -/
inductive PyEncoding where
  | utf8 | iso8859_1 | ascii | cp866 | cp1251
  deriving DecidableEq, Repr

/-- A UTF-8 continuation byte. -/
def isContB (b : Nat) : Bool := 0x80 ≤ b && b ≤ 0xBF

/-- Allowed second byte of a three-byte UTF-8 sequence headed by `b`
(excluding overlong encodings and surrogates, as CPython strict mode does). -/
def utf8Second3Ok (b b2 : Nat) : Bool :=
  if b = 0xE0 then 0xA0 ≤ b2 && b2 ≤ 0xBF
  else if b = 0xED then 0x80 ≤ b2 && b2 ≤ 0x9F
  else isContB b2

/-- Allowed second byte of a four-byte UTF-8 sequence headed by `b`
(excluding overlong encodings and code points above U+10FFFF). -/
def utf8Second4Ok (b b2 : Nat) : Bool :=
  if b = 0xF0 then 0x90 ≤ b2 && b2 ≤ 0xBF
  else if b = 0xF4 then 0x80 ≤ b2 && b2 ≤ 0x8F
  else isContB b2

/-- Strict UTF-8 decoding of a byte list, modelling CPython's
`bytes.decode('utf-8', errors='strict')`: `none` embeds a raised
`UnicodeDecodeError`. -/
def utf8DecodeStrict : List Nat → Option (List Char)
  | [] => some []
  | b :: rest =>
    if b ≤ 0x7F then
      (utf8DecodeStrict rest).map (fun cs => Char.ofNat b :: cs)
    else if 0xC2 ≤ b && b ≤ 0xDF then
      match rest with
      | b2 :: rest2 =>
        if isContB b2 then
          (utf8DecodeStrict rest2).map
            (fun cs => Char.ofNat ((b - 0xC0) * 64 + (b2 - 0x80)) :: cs)
        else none
      | [] => none
    else if 0xE0 ≤ b && b ≤ 0xEF then
      match rest with
      | b2 :: b3 :: rest3 =>
        if utf8Second3Ok b b2 && isContB b3 then
          (utf8DecodeStrict rest3).map
            (fun cs => Char.ofNat (((b - 0xE0) * 64 + (b2 - 0x80)) * 64 + (b3 - 0x80)) :: cs)
        else none
      | _ => none
    else if 0xF0 ≤ b && b ≤ 0xF4 then
      match rest with
      | b2 :: b3 :: b4 :: rest4 =>
        if utf8Second4Ok b b2 && isContB b3 && isContB b4 then
          (utf8DecodeStrict rest4).map
            (fun cs =>
              Char.ofNat ((((b - 0xF0) * 64 + (b2 - 0x80)) * 64 + (b3 - 0x80)) * 64 + (b4 - 0x80)) :: cs)
        else none
      | _ => none
    else none

/-- The Unicode replacement character U+FFFD. -/
def replChar : Char := Char.ofNat 0xFFFD

/-- Lossy UTF-8 decoding, modelling `bytes.decode('utf-8', errors='replace')`,
which cannot fail: an ill-formed sequence contributes a replacement character
and decoding resumes after the offending lead byte.  (CPython may merge a
maximal ill-formed subpart into one replacement character; only totality and
the well-formed cases matter to the claims.) -/
def utf8DecodeReplace : List Nat → List Char
  | [] => []
  | b :: rest =>
    if b ≤ 0x7F then Char.ofNat b :: utf8DecodeReplace rest
    else if 0xC2 ≤ b && b ≤ 0xDF then
      match rest with
      | b2 :: rest2 =>
        if isContB b2 then
          Char.ofNat ((b - 0xC0) * 64 + (b2 - 0x80)) :: utf8DecodeReplace rest2
        else replChar :: utf8DecodeReplace (b2 :: rest2)
      | [] => [replChar]
    else if 0xE0 ≤ b && b ≤ 0xEF then
      match rest with
      | b2 :: b3 :: rest3 =>
        if utf8Second3Ok b b2 && isContB b3 then
          Char.ofNat (((b - 0xE0) * 64 + (b2 - 0x80)) * 64 + (b3 - 0x80)) ::
            utf8DecodeReplace rest3
        else replChar :: utf8DecodeReplace (b2 :: b3 :: rest3)
      | [b2] => replChar :: utf8DecodeReplace [b2]
      | [] => [replChar]
    else if 0xF0 ≤ b && b ≤ 0xF4 then
      match rest with
      | b2 :: b3 :: b4 :: rest4 =>
        if utf8Second4Ok b b2 && isContB b3 && isContB b4 then
          Char.ofNat ((((b - 0xF0) * 64 + (b2 - 0x80)) * 64 + (b3 - 0x80)) * 64 + (b4 - 0x80)) ::
            utf8DecodeReplace rest4
        else replChar :: utf8DecodeReplace (b2 :: b3 :: b4 :: rest4)
      | [b2, b3] => replChar :: utf8DecodeReplace [b2, b3]
      | [b2] => replChar :: utf8DecodeReplace [b2]
      | [] => [replChar]
    else replChar :: utf8DecodeReplace rest
termination_by bs => bs.length
decreasing_by all_goals (simp [List.length_cons]; try omega)

/-- Domain of definition of the single-byte codecs: ASCII accepts bytes 0-127,
Latin-1 and CP866 every byte, CP1251 every byte except 0x98 (undefined in the
Windows-1251 code page, so strict decoding raises on it). -/
def singleByteDefined : PyEncoding → Nat → Bool
  | .ascii, b => b ≤ 0x7F
  | .iso8859_1, b => b ≤ 0xFF
  | .cp866, b => b ≤ 0xFF
  | .cp1251, b => b ≤ 0xFF && b ≠ 0x98
  | .utf8, _ => false

/-- The character a single-byte codec assigns to a defined byte.  Latin-1 maps
byte `b` to code point `b`; for the high halves of CP866/CP1251 the concrete
glyph identities are irrelevant to every claim, so the model maps byte `b`
injectively to code point `0x10000 + b` as a stand-in. -/
def singleByteChar (enc : PyEncoding) (b : Nat) : Char :=
  match enc with
  | .cp866 | .cp1251 => if b ≤ 0x7F then Char.ofNat b else Char.ofNat (0x10000 + b)
  | _ => Char.ofNat b

/-- Models `line_bytes.decode(encoding, errors='strict')`
(script_executor.py line 50): `none` embeds a raised `UnicodeDecodeError`. -/
def strictDecode (enc : PyEncoding) (bs : List Nat) : Option (List Char) :=
  match enc with
  | .utf8 => utf8DecodeStrict bs
  | _ =>
    if bs.all (singleByteDefined enc) then some (bs.map (singleByteChar enc)) else none

/-- Python's `str.strip()` whitespace test, approximated by
`Char.isWhitespace`. -/
def isPySpace (c : Char) : Bool := c.isWhitespace

/-- Models Python `str.strip()` on a character list: drop leading and trailing
whitespace. -/
def stripChars (cs : List Char) : List Char :=
  List.rdropWhile isPySpace (List.dropWhile isPySpace cs)

/-- Models Python `str.strip()`. -/
def pyStrip (s : String) : String := String.mk (stripChars s.data)

/-- A raised `UnicodeDecodeError`, tagged with the failing codec. -/
structure DecErr where
  encoding : PyEncoding
  deriving DecidableEq, Repr

/-- The `for encoding in encodings: try ... except UnicodeDecodeError:
continue` loop of `_decode_output_line` (script_executor.py 48-52): the
stripped result of the first strict decode that succeeds. -/
def tryCandidates (encodings : List PyEncoding) (line_bytes : List Nat) : Option String :=
  match encodings with
  | [] => none
  | enc :: rest =>
    match strictDecode enc line_bytes with
    | some cs => some (pyStrip (String.mk cs))
    | none => tryCandidates rest line_bytes

/-- Embeds `CommandExecutor._decode_output_line` (script_executor.py 37-58).
An `Except.error` value would embed an exception propagating out of the
function.  Once every strict candidate has failed, line 56 decodes with
`'utf-8', errors='replace'`, which is total, so the `except Exception`
fallback to `'latin1', errors='replace'` on line 58 is unreachable — in
CPython as in this model — and every branch returns `Except.ok`. -/
def _decode_output_line (line_bytes : List Nat) (encodings : List PyEncoding) :
    Except DecErr String :=
  match tryCandidates encodings line_bytes with
  | some s => Except.ok s
  | none => Except.ok (pyStrip (String.mk (utf8DecodeReplace line_bytes)))

/-- The string `_decode_output_line` evaluates to (the `""` default is
unreachable: the function never returns `Except.error`). -/
def decodedLine (line_bytes : List Nat) (encodings : List PyEncoding) : String :=
  ((_decode_output_line line_bytes encodings).toOption).getD ""

/-- Embeds `CommandExecutor._process_output_stream` (script_executor.py
60-87) on a stream given as a list of byte lines; `output_lines` is the
accumulator list the Python code mutates in place.  Empty byte lines are
skipped (`if not line: continue`), lines whose decode is empty after stripping
are skipped (`if not decoded_line: continue`), all others are appended.  The
real-time `print` calls carry no data and are not modelled. -/
def _process_output_stream (stream : List (List Nat)) (output_lines : List String)
    (encodings : List PyEncoding) : List String :=
  match stream with
  | [] => output_lines
  | line :: rest =>
    if line = [] then _process_output_stream rest output_lines encodings
    else
      let decoded := decodedLine line encodings
      if decoded = "" then _process_output_stream rest output_lines encodings
      else _process_output_stream rest (output_lines ++ [decoded]) encodings

/-- Result of an execution, embedding the `subprocess.CompletedProcess` the
executors construct (the `args` field is omitted: no claim mentions it). -/
structure CompletedProcess where
  returncode : Int
  stdout : String
  stderr : String
  deriving DecidableEq, Repr

/-- `LinuxCommandExecutor.UNIX_ENCODINGS` (script_executor.py 93). -/
def UNIX_ENCODINGS : List PyEncoding := [.utf8, .iso8859_1, .ascii]

/-- Embeds `LinuxCommandExecutor.execute` (script_executor.py 96-131).  The
child process is represented by its stdout byte-line stream and exit code.
stderr processing is disabled in the source (lines 116-119), so `stderr_lines`
stays empty. -/
def linuxExecute (stdoutStream : List (List Nat)) (returncode : Int) : CompletedProcess :=
  let stdout_lines := _process_output_stream stdoutStream [] UNIX_ENCODINGS
  let stderr_lines : List String := []
  { returncode := returncode
    stdout := if stdout_lines ≠ [] then String.intercalate "\n" stdout_lines else ""
    stderr := if stderr_lines ≠ [] then String.intercalate "\n" stderr_lines else "" }

/-- Written from C10's words: the stripped decodings of the non-empty byte
lines, keeping exactly those that are non-empty after stripping. -/
def specKeptLines (stdoutStream : List (List Nat)) : List String :=
  stdoutStream.filterMap (fun line =>
    if line = [] then none
    else
      let d := decodedLine line UNIX_ENCODINGS
      if d = "" then none else some d)

/-- C3: for every byte sequence and every candidate encoding list,
`_decode_output_line` returns a string and never raises: the strict-decode
failures are caught by the candidate loop and the lossy UTF-8 fallback is
total. -/
theorem c3_decode_total (line_bytes : List Nat) (encodings : List PyEncoding) :
    ∃ s : String, _decode_output_line line_bytes encodings = Except.ok s := by
  unfold _decode_output_line
  cases tryCandidates encodings line_bytes <;> exact ⟨_, rfl⟩

lemma dropWhile_rdropWhile_dropWhile (p : Char → Bool) (cs : List Char) :
    List.dropWhile p (List.rdropWhile p (List.dropWhile p cs))
      = List.rdropWhile p (List.dropWhile p cs) := by
  rcases hpre : List.rdropWhile p (List.dropWhile p cs) with _ | ⟨b, t⟩
  · simp
  · have hApre : List.rdropWhile p (List.dropWhile p cs) <+: List.dropWhile p cs :=
      List.rdropWhile_prefix p _
    rw [hpre] at hApre
    obtain ⟨s, hs⟩ := hApre
    have hne : List.dropWhile p cs ≠ [] := by
      rw [← hs]; simp
    have hhead := List.head_dropWhile_not p cs hne
    have hb : (List.dropWhile p cs).head hne = b := by
      simp [← hs]
    rw [hb] at hhead
    simp [List.dropWhile_cons, hhead]

lemma stripChars_idem (cs : List Char) : stripChars (stripChars cs) = stripChars cs := by
  unfold stripChars
  rw [dropWhile_rdropWhile_dropWhile, List.rdropWhile_idempotent]

lemma pyStrip_idem (s : String) : pyStrip (pyStrip s) = pyStrip s := by
  unfold pyStrip
  rw [stripChars_idem]

lemma tryCandidates_strip (encodings : List PyEncoding) (bs : List Nat) (s : String)
    (h : tryCandidates encodings bs = some s) : ∃ t, s = pyStrip t := by
  induction encodings with
  | nil => simp [tryCandidates] at h
  | cons enc rest ih =>
    simp only [tryCandidates] at h
    cases hd : strictDecode enc bs with
    | some cs =>
      rw [hd] at h
      simp only [Option.some.injEq] at h
      exact ⟨_, h.symm⟩
    | none =>
      rw [hd] at h
      exact ih h

lemma decodedLine_is_stripped (bs : List Nat) (encs : List PyEncoding) :
    ∃ t, decodedLine bs encs = pyStrip t := by
  unfold decodedLine _decode_output_line
  cases h : tryCandidates encs bs with
  | some s =>
    obtain ⟨t, ht⟩ := tryCandidates_strip encs bs s h
    exact ⟨t, by simp [Except.toOption, ht]⟩
  | none =>
    exact ⟨String.mk (utf8DecodeReplace bs), by simp [Except.toOption]⟩

lemma processOutputStream_eq (stream : List (List Nat)) (acc : List String)
    (encodings : List PyEncoding) :
    _process_output_stream stream acc encodings
      = acc ++ stream.filterMap (fun line =>
          if line = [] then none
          else
            let d := decodedLine line encodings
            if d = "" then none else some d) := by
  induction stream generalizing acc with
  | nil => simp [_process_output_stream]
  | cons line rest ih =>
    by_cases h1 : line = []
    · simp [_process_output_stream, h1, ih]
    · by_cases h2 : decodedLine line encodings = ""
      · simp [_process_output_stream, h1, h2, ih]
      · simp [_process_output_stream, h1, h2, ih]

/-- C10: the POSIX executor's stdout is the newline-join of exactly those
decoded lines that are non-empty after stripping — every kept line is already
stripped (stripping it again changes nothing) and non-empty, blank lines are
dropped — and it is the empty string when no line is kept. -/
theorem c10_linux_stdout_join (stdoutStream : List (List Nat)) (returncode : Int) :
    (linuxExecute stdoutStream returncode).stdout
        = String.intercalate "\n" (specKeptLines stdoutStream)
      ∧ (specKeptLines stdoutStream = [] → (linuxExecute stdoutStream returncode).stdout = "")
      ∧ ∀ s ∈ specKeptLines stdoutStream, pyStrip s = s ∧ s ≠ "" := by
  have hlines : _process_output_stream stdoutStream [] UNIX_ENCODINGS
      = specKeptLines stdoutStream := by
    rw [processOutputStream_eq]
    simp [specKeptLines]
  refine ⟨?_, ?_, ?_⟩
  · unfold linuxExecute
    rw [hlines]
    by_cases h : specKeptLines stdoutStream = []
    · simp [h]
      try rfl
    · simp [h]
  · intro h
    unfold linuxExecute
    rw [hlines, h]
    simp
  · intro s hs
    unfold specKeptLines at hs
    rw [List.mem_filterMap] at hs
    obtain ⟨line, _, hline⟩ := hs
    by_cases h1 : line = []
    · simp [h1] at hline
    · simp only [h1, if_false] at hline
      by_cases h2 : decodedLine line UNIX_ENCODINGS = ""
      · simp [h2] at hline
      · simp only [h2, if_false, Option.some.injEq] at hline
        obtain ⟨t, ht⟩ := decodedLine_is_stripped line UNIX_ENCODINGS
        refine ⟨?_, ?_⟩
        · rw [← hline, ht, pyStrip_idem]
        · rw [← hline]; exact h2

/-- C10 witness: a concrete stream — `b"  hello  "`, an empty byte line and a
whitespace-only line — joins to the single stripped line `"hello"`. -/
theorem c10_witness :
    (linuxExecute [[32, 32, 104, 101, 108, 108, 111, 32, 32], [], [32, 9]] 0).stdout
        = String.intercalate "\n" (specKeptLines [[32, 32, 104, 101, 108, 108, 111, 32, 32], [], [32, 9]])
      ∧ (specKeptLines [[32, 32, 104, 101, 108, 108, 111, 32, 32], [], [32, 9]] = []
          → (linuxExecute [[32, 32, 104, 101, 108, 108, 111, 32, 32], [], [32, 9]] 0).stdout = "")
      ∧ ∀ s ∈ specKeptLines [[32, 32, 104, 101, 108, 108, 111, 32, 32], [], [32, 9]],
          pyStrip s = s ∧ s ≠ "" :=
  c10_linux_stdout_join [[32, 32, 104, 101, 108, 108, 111, 32, 32], [], [32, 9]] 0

/-! ## Code-block executor (script_executor.py 258-341) -/

/-- Console and process events of `run_code_block`. -/
inductive RunEv where
  | warnInvalid : Int → Nat → RunEv
  | header : Int → String → RunEv
  | resultMarker : RunEv
  | launch : String → RunEv
  | exitCode : Int → RunEv
  | stderrPanel : String → RunEv
  | execErrorNote : RunEv
  deriving DecidableEq, Repr

/-- Embeds `_is_valid_block_index` (script_executor.py 285-287). -/
def _is_valid_block_index (idx : Int) (total_blocks : Nat) : Bool :=
  1 ≤ idx && idx ≤ (total_blocks : Int)

/-- Python's `sub in s` substring test for a non-empty `sub`, via `splitOn`:
`sub` occurs in `s` exactly when splitting at `sub` yields more than one
part.  (Only used with `sub = "Error:"`.) -/
def strContains (s sub : String) : Bool := (s.splitOn sub).length != 1

/-- Embeds `_has_additional_errors` (script_executor.py 330-333): stderr is
truthy and no stderr line contains the `"Error:"` tag.  The localization
wrapper `t` is modelled as the identity, per the spec's out-of-scope
treatment of i18n. -/
def _has_additional_errors (result : CompletedProcess) : Bool :=
  result.stderr ≠ "" &&
    !((result.stderr.splitOn "\n").any (fun line => strContains line "Error:"))

/-- Embeds `_display_execution_result` (script_executor.py 317-327): prints
the exit code, then the stderr panel under the `>>> Error:` marker only when
`_has_additional_errors` holds. -/
def _display_execution_result (result : CompletedProcess) : List RunEv :=
  [RunEv.exitCode result.returncode] ++
    (if _has_additional_errors result then [RunEv.stderrPanel result.stderr] else [])

/-- Embeds `run_code_block` (script_executor.py 258-282) as an event trace.
`execOutcome` is the outcome of `_execute_code_block`'s executor call:
`Except.ok` the completed process, `Except.error` an exception raised during
execution, which `_handle_execution_error` (336-341) catches and reports as a
short note.  On an invalid index only the warning naming the valid range
`1..total` is printed and the function returns; nothing is launched. -/
def run_code_block (code_blocks : List String) (idx : Int)
    (execOutcome : Except Unit CompletedProcess) : List RunEv :=
  if !(_is_valid_block_index idx code_blocks.length) then
    [RunEv.warnInvalid idx code_blocks.length]
  else
    let code := code_blocks.getD (idx - 1).toNat ""
    [RunEv.header idx code, RunEv.resultMarker, RunEv.launch code] ++
      match execOutcome with
      | .ok result => _display_execution_result result
      | .error _ => [RunEv.execErrorNote]

/-- C5: for every block list and out-of-range index (below 1 or above the
list length), `run_code_block` emits exactly the warning naming the range
`1..len(L)` and returns; in particular no process launch event and no
execution-result event occurs in the trace. -/
theorem c5_invalid_index_no_launch (code_blocks : List String) (idx : Int)
    (execOutcome : Except Unit CompletedProcess)
    (h : idx < 1 ∨ idx > (code_blocks.length : Int)) :
    run_code_block code_blocks idx execOutcome
        = [RunEv.warnInvalid idx code_blocks.length]
      ∧ (∀ c, RunEv.launch c ∉ run_code_block code_blocks idx execOutcome)
      ∧ (∀ rc, RunEv.exitCode rc ∉ run_code_block code_blocks idx execOutcome) := by
  have hv : _is_valid_block_index idx code_blocks.length = false := by
    simp only [_is_valid_block_index, Bool.and_eq_false_iff, decide_eq_false_iff_not]
    omega
  refine ⟨?_, ?_, ?_⟩
  · simp [run_code_block, hv]
  · intro c
    simp [run_code_block, hv]
  · intro rc
    simp [run_code_block, hv]

/-- C5 witness: index 5 against a two-element block list (spec §8). -/
theorem c5_witness :
    ((5 : Int) < 1 ∨ (5 : Int) > ((["echo a", "echo b"] : List String).length : Int))
      ∧ (run_code_block ["echo a", "echo b"] 5 (Except.ok ⟨0, "", ""⟩)
            = [RunEv.warnInvalid 5 (["echo a", "echo b"] : List String).length]
        ∧ (∀ c, RunEv.launch c ∉ run_code_block ["echo a", "echo b"] 5 (Except.ok ⟨0, "", ""⟩))
        ∧ (∀ rc, RunEv.exitCode rc ∉ run_code_block ["echo a", "echo b"] 5 (Except.ok ⟨0, "", ""⟩))) :=
  ⟨by decide, c5_invalid_index_no_launch ["echo a", "echo b"] 5 (Except.ok ⟨0, "", ""⟩) (by decide)⟩

/-- C8: after a valid-index execution, the stderr panel is printed exactly
when stderr is non-empty and none of its lines contains the `"Error:"` tag
with which the runner annotates stderr lines as it prints them. -/
theorem c8_stderr_panel_iff (code_blocks : List String) (idx : Int)
    (result : CompletedProcess)
    (h : _is_valid_block_index idx code_blocks.length = true) :
    (RunEv.stderrPanel result.stderr ∈ run_code_block code_blocks idx (Except.ok result))
      ↔ (result.stderr ≠ ""
          ∧ ∀ line ∈ result.stderr.splitOn "\n", strContains line "Error:" = false) := by
  have hmem : (RunEv.stderrPanel result.stderr ∈ run_code_block code_blocks idx (Except.ok result))
      ↔ _has_additional_errors result = true := by
    by_cases hb : _has_additional_errors result
    · simp [run_code_block, h, _display_execution_result, hb]
    · simp [run_code_block, h, _display_execution_result, hb]
  rw [hmem]
  unfold _has_additional_errors
  rw [Bool.and_eq_true, Bool.not_eq_true']
  constructor
  · rintro ⟨h1, h2⟩
    refine ⟨by simpa using h1, ?_⟩
    intro line hline
    rcases List.any_eq_false.mp h2 line hline with h3
    simpa using h3
  · rintro ⟨h1, h2⟩
    refine ⟨by simpa using h1, ?_⟩
    apply List.any_eq_false.mpr
    intro line hline
    simpa using h2 line hline

/-- C8 witness: a successful run with child-produced stderr text carrying no
`"Error:"` tag prints the panel. -/
theorem c8_witness :
    _is_valid_block_index 1 (["ls /nope"] : List String).length = true
      ∧ ((RunEv.stderrPanel (CompletedProcess.mk 2 "" "boom").stderr
            ∈ run_code_block ["ls /nope"] 1 (Except.ok ⟨2, "", "boom"⟩))
        ↔ ((CompletedProcess.mk 2 "" "boom").stderr ≠ ""
            ∧ ∀ line ∈ (CompletedProcess.mk 2 "" "boom").stderr.splitOn "\n",
                strContains line "Error:" = false)) :=
  ⟨by decide, c8_stderr_panel_iff ["ls /nope"] 1 ⟨2, "", "boom"⟩ (by decide)⟩

/-! ## Windows executor (script_executor.py 145-232) -/

/-- File-system and process events of `WindowsCommandExecutor.execute`. -/
inductive WinEv where
  | createTemp : String → String → WinEv
  | execBatch : String → WinEv
  | deleteAttempt : String → WinEv
  deriving DecidableEq, Repr

/-- Embeds `WindowsCommandExecutor._preprocess_windows_code`
(script_executor.py 162-167): strips `@echo off` and neutralizes `pause`. -/
def _preprocess_windows_code (code_block : String) : String :=
  (code_block.replace "@echo off" "").replace "pause" "rem pause"

/-- Embeds `WindowsCommandExecutor.execute` (script_executor.py 151-160) as
an event trace plus outcome.  The preprocessed code is written to the
temporary batch file `temp_path`; `execOutcome` is `_execute_batch_file`'s
result or raised exception; the `finally` block always runs
`_cleanup_temporary_file` (226-232) — which itself swallows deletion failures,
so deletion is an attempt — before the result is returned or the exception
propagates. -/
def windowsExecute (code_block : String) (temp_path : String)
    (execOutcome : Except Unit CompletedProcess) :
    List WinEv × Except Unit CompletedProcess :=
  ([WinEv.createTemp temp_path (_preprocess_windows_code code_block),
    WinEv.execBatch temp_path, WinEv.deleteAttempt temp_path],
   execOutcome)

/-- C7: for every command text and every execution outcome — a completed
process with any (in particular non-zero) exit code, or a raised exception —
the Windows executor's trace attempts deletion of its temporary batch file
after the execution step, and the outcome propagates unchanged. -/
theorem c7_windows_cleanup (code_block temp_path : String)
    (execOutcome : Except Unit CompletedProcess) :
    ((windowsExecute code_block temp_path execOutcome).1
        = [WinEv.createTemp temp_path (_preprocess_windows_code code_block),
           WinEv.execBatch temp_path, WinEv.deleteAttempt temp_path]
      ∧ WinEv.deleteAttempt temp_path ∈ (windowsExecute code_block temp_path execOutcome).1)
      ∧ (windowsExecute code_block temp_path execOutcome).2 = execOutcome := by
  refine ⟨⟨rfl, ?_⟩, rfl⟩
  simp [windowsExecute]

/-! ## Retriability classifier (error_messages.py) -/

/-- The concrete OpenAI exception classes relevant to `is_retriable_error`,
plus catch-alls: `plainApiError` stands for an `APIError` instance that is
none of the listed subclasses, `plainOpenAIError` for an `OpenAIError`
outside the `APIError` branch, `otherError` for a non-OpenAI exception. -/
inductive OpenAIErr where
  | rateLimitError | authenticationError | permissionDeniedError
  | notFoundError | badRequestError | apiConnectionError | apiTimeoutError
  | plainApiError | plainOpenAIError | otherError
  deriving DecidableEq, Repr

/-- The exception classes of `_LazyOpenAIImports.get_exceptions`
(error_messages.py 33-46). -/
inductive ExcClass where
  | RateLimitError | APIError | OpenAIError | AuthenticationError
  | APIConnectionError | PermissionDeniedError | NotFoundError | BadRequestError
  deriving DecidableEq, Repr

/-- Embeds `_LazyOpenAIImports.is_instance` (error_messages.py 55-64) through
the openai library's class hierarchy: the six concrete classes and
`APITimeoutError` (a subclass of `APIConnectionError`) all derive from
`APIError`, which derives from `OpenAIError`; `plainOpenAIError` is an
`OpenAIError` only; `otherError` is none of them. -/
def isInstance (e : OpenAIErr) (cls : ExcClass) : Bool :=
  match cls, e with
  | .RateLimitError, .rateLimitError => true
  | .RateLimitError, _ => false
  | .AuthenticationError, .authenticationError => true
  | .AuthenticationError, _ => false
  | .PermissionDeniedError, .permissionDeniedError => true
  | .PermissionDeniedError, _ => false
  | .NotFoundError, .notFoundError => true
  | .NotFoundError, _ => false
  | .BadRequestError, .badRequestError => true
  | .BadRequestError, _ => false
  | .APIConnectionError, .apiConnectionError => true
  | .APIConnectionError, .apiTimeoutError => true
  | .APIConnectionError, _ => false
  | .APIError, .plainOpenAIError => false
  | .APIError, .otherError => false
  | .APIError, _ => true
  | .OpenAIError, .otherError => false
  | .OpenAIError, _ => true

/-- Embeds `is_retriable_error` (error_messages.py 154-192): the `isinstance`
checks in source order. -/
def is_retriable_error (e : OpenAIErr) : Bool :=
  if isInstance e .APIConnectionError then true
  else if isInstance e .RateLimitError then true
  else if isInstance e .AuthenticationError then false
  else if isInstance e .PermissionDeniedError then false
  else if isInstance e .BadRequestError then false
  else if isInstance e .NotFoundError then false
  else if isInstance e .APIError then true
  else false

/-- C9: rate-limit and connection errors (including the timeout subclass of
the connection class) are retriable; authentication, permission-denied,
bad-request and not-found errors are not — even though every one of these is
also an instance of `APIError`, whose catch-all check maps to retriable, the
more specific checks run first. -/
theorem c9_retriable_classification :
    is_retriable_error .rateLimitError = true
      ∧ is_retriable_error .apiConnectionError = true
      ∧ is_retriable_error .apiTimeoutError = true
      ∧ is_retriable_error .authenticationError = false
      ∧ is_retriable_error .permissionDeniedError = false
      ∧ is_retriable_error .badRequestError = false
      ∧ is_retriable_error .notFoundError = false
      ∧ isInstance .rateLimitError .APIError = true
      ∧ isInstance .authenticationError .APIError = true
      ∧ isInstance .badRequestError .APIError = true
      ∧ isInstance .notFoundError .APIError = true
      ∧ isInstance .permissionDeniedError .APIError = true := by decide

end AiEbash
